import Mathlib

/-!
# weaviate2024: chat-history ingestion, retrieval and answer generation

A shallow embedding of `main.go`.  Pure computations (the windowing loops of
`postMessages`, the prompt formatting of `generateAnswer`) are Lean functions.
Calls into the vector-store client, the HTTP client and the JSON codec are
answered by a `World` record; every externally visible effect (text written
to standard output, the batch insert, the GraphQL query, the HTTP request)
is recorded as an `Event` in the trace of a `Run`.
-/

namespace Weaviate2024

/-! ## Data model -/

/-- Element of the chat history (`type message struct`). -/
structure message where
  Sender : String
  Message : String
deriving DecidableEq, Repr

/-- The package-level variable `className`. -/
def className : String := "Message"

/-- The fields of `models.Object` that `postMessages` sets: `Class` and the
`Properties` map, kept as an association list. -/
structure Object where
  Class : String
  Properties : List (String × String)
deriving DecidableEq, Repr

/-- Map lookup `obj.Properties[key]`. -/
def Object.property (obj : Object) (key : String) : Option String :=
  obj.Properties.lookup key

/-- Go's `strings.Join`: the empty string for no elements, the element itself
for one, otherwise the first element followed by `sep` and the next element,
repeatedly. -/
def stringsJoin : List String → String → String
  | [], _ => ""
  | [e], _ => e
  | e :: rest, sep => rest.foldl (fun b s => b ++ sep ++ s) e

/-! ## The windowing loops of `postMessages` -/

/-- The inner loop `for j := i; j < i+3 && j < len(messages); j++`, started at
the current `j` with the current `messageChunk`; each pass appends
`messages[j].Message, messages[j].Sender`. -/
def innerLoop (messages : List message) (i j : Nat) (messageChunk : List String) :
    List String :=
  if h : j < i + 3 ∧ j < messages.length then
    innerLoop messages i (j + 1)
      (messageChunk ++ [(messages.get ⟨j, h.2⟩).Message, (messages.get ⟨j, h.2⟩).Sender])
  else
    messageChunk
termination_by messages.length - j

/-- The values of `j` at which the body of the inner loop runs, in order: the
same loop control as `innerLoop`, recording the index instead of the strings. -/
def innerLoopIndices (len i j : Nat) (visited : List Nat) : List Nat :=
  if j < i + 3 ∧ j < len then
    innerLoopIndices len i (j + 1) (visited ++ [j])
  else
    visited
termination_by len - j

/-- The source indices chunk `i` is made from. -/
def chunkSources (messages : List message) (i : Nat) : List Nat :=
  innerLoopIndices messages.length i i []

/-- The `messageChunk` slice built for starting index `i`. -/
def messageChunk (messages : List message) (i : Nat) : List String :=
  innerLoop messages i i []

/-- The outer loop `for i, _ := range messages`, started at the current `i`
with the current `objs`. -/
def outerLoop (messages : List message) (i : Nat) (objs : List Object) : List Object :=
  if i < messages.length then
    let obj : Object :=
      { Class := className
        Properties := [("message", stringsJoin (messageChunk messages i) "\n")] }
    outerLoop messages (i + 1) (objs ++ [obj])
  else
    objs
termination_by messages.length - i

/-- The slice `objs` that `postMessages` hands to the batcher. -/
def buildObjects (messages : List message) : List Object :=
  outerLoop messages 0 []

/-- The text the claim describes for chunk `i`: the slice
`ms[i .. min(i+3, L))`, message before sender, joined by newlines. -/
def chunkText (ms : List message) (i : Nat) : String :=
  "\n".intercalate
    ((((ms.take (min (i + 3) ms.length)).drop i).map
      (fun m => [m.Message, m.Sender])).flatten)

/-- The two lines a source message contributes to a chunk, by index; nothing
for an index outside the list. -/
def linesOf (ms : List message) (k : Nat) : List String :=
  match ms[k]? with
  | some m => [m.Message, m.Sender]
  | none => []

/-! ## Effects and outcomes -/

/-- The value a Go panic carries: an `error` handed to `panic`, or one of the
two run-time errors this program can raise. -/
inductive PanicValue where
  | error (err : String)
  | indexOutOfRange (index length : Nat)
  | nilDereference
deriving DecidableEq, Repr

/-- How a function stops: it returns, it panics, `log.Fatalf` ends the
process, or the run left the modelled fragment of `fmt.Sprintf`. -/
inductive Halt (α : Type) where
  | returned (value : α)
  | panicked (p : PanicValue)
  | fatal (format : String) (err : String)
  | unmodelled
deriving DecidableEq, Repr

/-- The `Get` query `main` assembles. -/
structure GetQuery where
  ClassName : String
  Fields : List String
  NearTextConcepts : List String
  Limit : Nat
deriving DecidableEq, Repr

/-- The HTTP request `generateAnswer` sends. -/
structure Request where
  Method : String
  URL : String
  Body : String
  Header : List (String × String)
deriving DecidableEq, Repr

/-- Externally visible effects, in the order they happen. Operands of the
print functions are kept as their text. -/
inductive Event where
  | print (text : String)
  | println (text : String)
  | printf (format : String) (operand : String)
  | batchObjects (objs : List Object)
  | graphqlGet (query : GetQuery)
  | httpDo (req : Request)
deriving DecidableEq, Repr

/-- A finished execution: the effects so far and how it stopped. -/
structure Run (α : Type) where
  trace : List Event
  halt : Halt α
deriving DecidableEq, Repr

/-- Sequencing of two executions: the second runs only if the first returned. -/
def Run.andThen {α β : Type} (r : Run α) (k : α → Run β) : Run β :=
  match r.halt with
  | .returned v => { trace := r.trace ++ (k v).trace, halt := (k v).halt }
  | .panicked p => { trace := r.trace, halt := .panicked p }
  | .fatal f e => { trace := r.trace, halt := .fatal f e }
  | .unmodelled => { trace := r.trace, halt := .unmodelled }

/-- One effect, then return. -/
def emit (e : Event) : Run Unit :=
  { trace := [e], halt := .returned () }

/-! ## Types of the external services -/

/-- The `Result` part of one batch response; `Errors` is a pointer, `none`
when nil, otherwise the error record as text. -/
structure ObjectsGetResponseResult where
  Errors : Option String
deriving DecidableEq, Repr

/-- One element of the batch result, `models.ObjectsGetResponse` of the client
library; `Result` is a pointer there, `none` when nil. -/
structure ObjectsGetResponse where
  Result : Option ObjectsGetResponseResult
deriving DecidableEq, Repr

/-- The retrieval envelope, `models.GraphQLResponse`: `Data` in the order the
`range` loop visits it, `Errors` with `none` for the nil slice. -/
structure GraphQLResponse where
  Data : List (String × String)
  Errors : Option (List String)
deriving DecidableEq, Repr

/-- The anonymous struct of `Choices[k].Message`. -/
structure ChoiceMessage where
  Role : String
  Content : String

/-- The anonymous element struct of `GroqResponse.Choices`. -/
structure Choice where
  Index : Int
  Message : ChoiceMessage
  Logprobs : Option String
  FinishReason : String

/-- The anonymous struct of `GroqResponse.Usage`. -/
structure Usage where
  QueueTime : Float
  PromptTokens : Int
  PromptTime : Float
  CompletionTokens : Int
  CompletionTime : Float
  TotalTokens : Int
  TotalTime : Float

/-- The anonymous struct of `GroqResponse.XGroq`. -/
structure XGroq where
  ID : String

/-- The decoded completion response (`type GroqResponse struct`). -/
structure GroqResponse where
  ID : String
  Object : String
  Created : Int
  Model : String
  Choices : List Choice
  Usage : Usage
  SystemFingerprint : String
  XGroq : XGroq

/-- The request payload of `generateAnswer`: the map with the keys `messages`
(a slice of string maps, kept as association lists) and `model`. -/
structure Payload where
  messages : List (List (String × String))
  model : String
deriving DecidableEq, Repr

/-- The answers of everything outside the program during one run. An
`Option String` is a Go `error` (`none` for nil). -/
structure World where
  /-- Error of `godotenv.Load()`. -/
  godotenvLoad : Option String
  /-- Value of `os.Getenv(name)`. -/
  getenv : String → String
  /-- Error of `weaviate.NewClient(cfg)`. -/
  newClient : Option String
  /-- Error of the liveness check in `CreateClient`. -/
  liveChecker : Option String
  /-- Result of `os.Open(name)`: the content of the file, or the error. -/
  osOpen : String → Except String String
  /-- Result of decoding the file into `[]message`. -/
  jsonDecodeMessages : String → Except String (List message)
  /-- Result of the batch insert of the given objects. -/
  batchDo : List Object → Except String (List ObjectsGetResponse)
  /-- Result of the GraphQL `Get` query. -/
  graphqlDo : GetQuery → Except String GraphQLResponse
  /-- Text of `fmt.Sprintf("%+v", response)`. -/
  sprintfPlusV : GraphQLResponse → String
  /-- Result of `json.Marshal(payload)`. -/
  jsonMarshal : Payload → Except String String
  /-- Error of `http.NewRequest(method, url, body)`. -/
  httpNewRequest : String → String → String → Option String
  /-- Result of `client.Do(req)`: the error of the round trip, or else what
  `ioutil.ReadAll(resp.Body)` gives, the body or the error of reading it. -/
  clientDo : Request → Except String (Except String String)
  /-- Result of `json.Unmarshal(body, &groqResponse)`. -/
  jsonUnmarshal : String → Except String GroqResponse

/-! ## `fmt.Sprintf` on string operands -/

/-- What `fmt` appends when operands are left over after the format is
used up: the text EXTRA and every operand with its type, in brackets. -/
def extraString (a : List String) : String :=
  "%!(EXTRA " ++ ", ".intercalate (a.map (fun s => "string=" ++ s)) ++ ")"

/-- The check after the scanning loop of `fmt.Sprintf`: operands that were
not used are appended as the EXTRA marker. -/
def checkExtra (a : List String) (buf : String) : String :=
  match a with
  | [] => buf
  | _ :: _ => buf ++ extraString a

/-- The scanning loop of `fmt.Sprintf` for string operands and the verbs
`%s` and `%%` without flags, width or precision. Text outside a verb is
copied; `%s` appends the next operand unchanged, or the MISSING marker when
none is left; a lone `%` at the end appends the NOVERB marker and leaves the
loop. Any other verb is outside the model and gives `none`. -/
def doPrintf : List Char → List String → String → Option String
  | [], a, buf => some (checkExtra a buf)
  | c :: rest, a, buf =>
    if c = '%' then
      match rest with
      | [] => some (checkExtra a (buf ++ "%!(NOVERB)"))
      | verb :: rest2 =>
        if verb = '%' then doPrintf rest2 a (buf.push '%')
        else if verb = 's' then
          match a with
          | [] => doPrintf rest2 [] (buf ++ "%!s(MISSING)")
          | arg :: a2 => doPrintf rest2 a2 (buf ++ arg)
        else none
    else doPrintf rest a (buf.push c)

/-- The call `fmt.Sprintf(format, a...)` with string operands. -/
def Sprintf (format : String) (a : List String) : Option String :=
  doPrintf format.toList a ""

/-! ## `generateAnswer` -/

/-- The raw string literal first assigned to `userPrompt`. -/
def userPromptFormat : String :=
  "\n\t\n\tIncoming message: \n\t\"\"\"\n\t %s\n\t\"\"\"\n\n\tPrevious conversations:\n\t\"\"\"\n\t%s\n\t\"\"\"\n\t"

/-- The raw string literal `systemPrompt`. -/
def systemPrompt : String :=
  "\n\tYou are a helpful assistant and you generate responses based on the conversation context and tone.\n\tThe reply should answering the incoming message directly, be short and concise.\n\t"

/-- The part of `userPromptFormat` before the first verb. -/
def userPromptHead : String := "\n\t\n\tIncoming message: \n\t\"\"\"\n\t "

/-- The part of `userPromptFormat` between the two verbs. -/
def userPromptMiddle : String := "\n\t\"\"\"\n\n\tPrevious conversations:\n\t\"\"\"\n\t"

/-- The part of `userPromptFormat` after the second verb. -/
def userPromptTail : String := "\n\t\"\"\"\n\t"

/-- The `payload` map of `generateAnswer`, from the formatted user prompt. -/
def generateAnswerPayload (incomingMessage ragResults : String) : Option Payload :=
  match Sprintf userPromptFormat [incomingMessage, ragResults] with
  | none => none
  | some userPrompt =>
    some
      { messages :=
          [ [("role", "system"), ("content", systemPrompt)],
            [("role", "user"), ("content", userPrompt)] ]
        model := "llama-3.1-70b-versatile" }

/-- The last statement of `generateAnswer`:
`return groqResponse.Choices[0].Message.Content`, with Go's bounds check. -/
def firstChoiceContent (groqResponse : GroqResponse) : Halt String :=
  if h : 0 < groqResponse.Choices.length then
    .returned (groqResponse.Choices.get ⟨0, h⟩).Message.Content
  else
    .panicked (.indexOutOfRange 0 groqResponse.Choices.length)

/-- The statements of `generateAnswer` up to and including `json.Unmarshal`:
build the payload, encode it, send the request, read and decode the reply.
Every failure ends the process through `log.Fatalf`. -/
def requestCompletion (w : World) (incomingMessage ragResults : String) : Run GroqResponse :=
  match generateAnswerPayload incomingMessage ragResults with
  | none => { trace := [], halt := .unmodelled }
  | some payload =>
    let apiKey := w.getenv "GROQ_API_KEY"
    let url := "https://api.groq.com/openai/v1/chat/completions"
    match w.jsonMarshal payload with
    | .error err => { trace := [], halt := .fatal "Error encoding JSON: %v" err }
    | .ok jsonData =>
      match w.httpNewRequest "POST" url jsonData with
      | some err => { trace := [], halt := .fatal "Error creating request: %v" err }
      | none =>
        let req : Request :=
          { Method := "POST", URL := url, Body := jsonData
            Header := [("Authorization", "Bearer " ++ apiKey),
                       ("Content-Type", "application/json")] }
        match w.clientDo req with
        | .error err => { trace := [.httpDo req], halt := .fatal "Error making request: %v" err }
        | .ok resp =>
          match resp with
          | .error err =>
            { trace := [.httpDo req], halt := .fatal "Error reading response: %v" err }
          | .ok body =>
            match w.jsonUnmarshal body with
            | .error err =>
              { trace := [.httpDo req], halt := .fatal "Error unmarshalling response: %v" err }
            | .ok groqResponse => { trace := [.httpDo req], halt := .returned groqResponse }

/-- The function `generateAnswer`: the request, then the first choice of the
decoded response. -/
def generateAnswer (w : World) (incomingMessage ragResults : String) : Run String :=
  (requestCompletion w incomingMessage ragResults).andThen fun groqResponse =>
    { trace := [], halt := firstChoiceContent groqResponse }

/-! ## `postMessages` -/

/-- The loop `for i := range postRes` of `postMessages` over the remaining
responses: a non-nil `Result.Errors` is printed; reading through a nil
`Result` is a nil dereference. -/
def reportErrors : List ObjectsGetResponse → Run Unit
  | [] => { trace := [], halt := .returned () }
  | r :: rest =>
    match r.Result with
    | none => { trace := [], halt := .panicked .nilDereference }
    | some result =>
      match result.Errors with
      | some errors => (emit (.printf "Error: %+v \n" errors)).andThen (fun _ => reportErrors rest)
      | none => reportErrors rest

/-- The function `postMessages`. -/
def postMessages (w : World) (messages : List message) : Run Unit :=
  let objs := buildObjects messages
  match w.batchDo objs with
  | .error err => { trace := [.batchObjects objs], halt := .panicked (.error err) }
  | .ok postRes => (emit (.batchObjects objs)).andThen (fun _ => reportErrors postRes)

/-! ## `CreateClient` and `main` -/

/-- The function `CreateClient`: a failed `weaviate.NewClient` is printed and
leaves a nil client, on which the liveness check dereferences nil; a failed
liveness check panics. -/
def CreateClient (w : World) : Run Unit :=
  match w.newClient with
  | some err => { trace := [.println err], halt := .panicked .nilDereference }
  | none =>
    match w.liveChecker with
    | some err => { trace := [], halt := .panicked (.error err) }
    | none => { trace := [], halt := .returned () }

/-- The local variable `incomingMessage` of `main`. -/
def incomingMessage : String :=
  "Michael: What is the name of the movie that you recently watched and you told me about?"

/-- The query `main` builds: class `className`, the fields `message` and
`sender`, the incoming message as the only concept, limit 10. -/
def retrievalQuery : GetQuery :=
  { ClassName := className
    Fields := ["message", "sender"]
    NearTextConcepts := [incomingMessage]
    Limit := 10 }

/-- The statements of `main` after the query returned (from `if err != nil`
to the end). -/
def afterRetrieval (w : World) (result : Except String GraphQLResponse) : Run Unit :=
  match result with
  | .error err => { trace := [], halt := .panicked (.error err) }
  | .ok response =>
    match response.Errors with
    | some errors =>
      { trace := errors.map (fun e => Event.printf "Error: %+v \n" e), halt := .returned () }
    | none =>
      (emit (.print "RAG Results: \n")).andThen fun _ =>
      ({ trace := response.Data.map (fun kv => Event.printf "Message: %s \n" kv.2)
         halt := .returned () } : Run Unit).andThen fun _ =>
      (emit (.print "End Rag Results\n")).andThen fun _ =>
      (generateAnswer w incomingMessage (w.sprintfPlusV response)).andThen fun answer =>
      emit (.println answer)

/-- The function `main`. -/
def main (w : World) : Run Unit :=
  match w.godotenvLoad with
  | some err => { trace := [], halt := .panicked (.error err) }
  | none =>
    (CreateClient w).andThen fun _ =>
    match w.osOpen "chathistory.json" with
    | .error err => { trace := [], halt := .panicked (.error err) }
    | .ok file =>
      match w.jsonDecodeMessages file with
      | .error err => { trace := [], halt := .panicked (.error err) }
      | .ok messages =>
        (postMessages w messages).andThen fun _ =>
        (emit (.printf "\nIncoming message: %q \n\n" incomingMessage)).andThen fun _ =>
        (emit (.graphqlGet retrievalQuery)).andThen fun _ =>
        afterRetrieval w (w.graphqlDo retrievalQuery)

/-! ## Concrete inputs -/

/-- A history of two messages whose last element is sent by A. -/
def twoMessages : List message :=
  [{ Sender := "B", Message := "yo" }, { Sender := "A", Message := "hi" }]

/-- A history of five messages. -/
def fiveMessages : List message :=
  [ { Sender := "A", Message := "m0" }, { Sender := "B", Message := "m1" },
    { Sender := "A", Message := "m2" }, { Sender := "B", Message := "m3" },
    { Sender := "A", Message := "m4" } ]

/-- A completion response with one choice whose content is hello. -/
def helloResponse : GroqResponse :=
  { ID := "chatcmpl-1", Object := "chat.completion", Created := 1700000000
    Model := "llama-3.1-70b-versatile"
    Choices := [{ Index := 0, Message := { Role := "assistant", Content := "hello" }
                  Logprobs := none, FinishReason := "stop" }]
    Usage := { QueueTime := 0, PromptTokens := 12, PromptTime := 0, CompletionTokens := 1
               CompletionTime := 0, TotalTokens := 13, TotalTime := 0 }
    SystemFingerprint := "fp", XGroq := { ID := "req-1" } }

/-- A completion response without choices. -/
def noChoiceResponse : GroqResponse :=
  { helloResponse with Choices := [] }

/-- A world in which every external call succeeds: the history is
`twoMessages`, the batch insert reports no error, retrieval returns one
record and no error, and the completion endpoint returns `helloResponse`. -/
def calmWorld : World :=
  { godotenvLoad := none
    getenv := fun _ => "key"
    newClient := none
    liveChecker := none
    osOpen := fun _ => .ok "[]"
    jsonDecodeMessages := fun _ => .ok twoMessages
    batchDo := fun objs => .ok (objs.map fun _ => { Result := some { Errors := none } })
    graphqlDo := fun _ => .ok { Data := [("Get", "map[Message:[]]")], Errors := none }
    sprintfPlusV := fun _ => "&\x7bData:map[Get:map[Message:[]]] Errors:[]\x7d"
    jsonMarshal := fun _ => .ok "{}"
    httpNewRequest := fun _ _ _ => none
    clientDo := fun _ => .ok (.ok "{}")
    jsonUnmarshal := fun _ => .ok helloResponse }

/-- The calm world, except that retrieval comes back without a top-level
error and with one field-level error. -/
def fieldErrorWorld : World :=
  { calmWorld with
    graphqlDo := fun _ => .ok { Data := [], Errors := some ["no such class"] } }

/-- The calm world, except that the batch insert fails as a whole. -/
def batchErrorWorld : World :=
  { calmWorld with batchDo := fun _ => .error "connection refused" }

/-- The calm world, except that the second object of the batch is rejected. -/
def objectErrorWorld : World :=
  { calmWorld with
    batchDo := fun _ =>
      .ok [{ Result := some { Errors := none } },
           { Result := some { Errors := some "invalid object" } }] }

/-- The calm world, except that the completion endpoint returns no choice. -/
def noChoiceWorld : World :=
  { calmWorld with jsonUnmarshal := fun _ => .ok noChoiceResponse }

/-! ## Lemmas on the loops -/

theorem stringsJoin_go (sep : String) (rest : List String) (acc : String) :
    rest.foldl (fun b s => b ++ sep ++ s) acc = String.intercalate.go acc sep rest := by
  induction rest generalizing acc with
  | nil => rfl
  | cons a as ih => simp [String.intercalate.go, ih]

theorem stringsJoin_eq_intercalate (xs : List String) (sep : String) :
    stringsJoin xs sep = sep.intercalate xs := by
  match xs with
  | [] => rfl
  | [e] => rfl
  | e :: f :: rest =>
    simp [stringsJoin, String.intercalate, stringsJoin_go, String.intercalate.go]

theorem innerLoopIndices_eq (len i j : Nat) (visited : List Nat) :
    innerLoopIndices len i j visited = visited ++ List.range' j (min (i + 3) len - j) := by
  generalize h : len - j = n
  induction n generalizing j visited with
  | zero =>
    unfold innerLoopIndices
    have : ¬ (j < i + 3 ∧ j < len) := by omega
    have h2 : min (i + 3) len - j = 0 := by omega
    simp [this, h2]
  | succ n ih =>
    unfold innerLoopIndices
    by_cases hc : j < i + 3 ∧ j < len
    · rw [if_pos hc, ih (j + 1) _ (by omega)]
      have h2 : min (i + 3) len - j = (min (i + 3) len - (j + 1)) + 1 := by omega
      rw [h2, List.range'_succ]
      simp
    · have h2 : min (i + 3) len - j = 0 := by omega
      simp [hc, h2]

theorem innerLoop_eq_indices (ms : List message) (i j : Nat) (chunk : List String) :
    innerLoop ms i j chunk
      = chunk ++ ((innerLoopIndices ms.length i j []).map (linesOf ms)).flatten := by
  generalize h : ms.length - j = n
  induction n generalizing j chunk with
  | zero =>
    unfold innerLoop innerLoopIndices
    have : ¬ (j < i + 3 ∧ j < ms.length) := by omega
    simp [this]
  | succ n ih =>
    unfold innerLoop innerLoopIndices
    by_cases hc : j < i + 3 ∧ j < ms.length
    · rw [dif_pos hc, if_pos hc, ih (j + 1) _ (by omega), innerLoopIndices_eq,
        innerLoopIndices_eq]
      simp [linesOf, hc.2]
    · simp [hc]

theorem outerLoop_eq (ms : List message) (i : Nat) (objs : List Object) :
    outerLoop ms i objs = objs ++ (List.range' i (ms.length - i)).map
      (fun k => ({ Class := className
                   Properties := [("message", stringsJoin (messageChunk ms k) "\n")] } :
                 Object)) := by
  generalize h : ms.length - i = n
  induction n generalizing i objs with
  | zero =>
    unfold outerLoop
    have : ¬ (i < ms.length) := by omega
    simp [this]
  | succ n ih =>
    unfold outerLoop
    have hc : i < ms.length := by omega
    simp only [if_pos hc]
    rw [ih (i + 1) _ (by omega)]
    simp [List.range'_succ]

theorem chunkSources_eq (ms : List message) (i : Nat) :
    chunkSources ms i = List.range' i (min 3 (ms.length - i)) := by
  unfold chunkSources
  rw [innerLoopIndices_eq]
  have : min (i + 3) ms.length - i = min 3 (ms.length - i) := by omega
  simp [this]

theorem messageChunk_eq_sources (ms : List message) (i : Nat) :
    messageChunk ms i = ((chunkSources ms i).map (linesOf ms)).flatten := by
  unfold messageChunk chunkSources
  rw [innerLoop_eq_indices]
  simp

theorem map_linesOf_range' (ms : List message) (i n : Nat) :
    (List.range' i n).map (linesOf ms)
      = ((ms.drop i).take n).map (fun m => [m.Message, m.Sender])
        ++ List.replicate (n - (ms.length - i)) [] := by
  induction n generalizing i with
  | zero => simp
  | succ n ih =>
    rw [List.range'_succ, List.map_cons, ih]
    by_cases hi : i < ms.length
    · have hd : ms.drop i = ms[i] :: ms.drop (i + 1) := List.drop_eq_getElem_cons hi
      have hl : n + 1 - (ms.length - i) = n - (ms.length - (i + 1)) := by omega
      rw [hd, List.take_succ_cons, List.map_cons, hl]
      simp [linesOf, hi]
    · have hd : ms.drop i = [] := List.drop_eq_nil_of_le (by omega)
      have hd2 : ms.drop (i + 1) = [] := List.drop_eq_nil_of_le (by omega)
      have h1 : ms.length - i = 0 := by omega
      have h2 : ms.length - (i + 1) = 0 := by omega
      have hn : ms[i]? = none := by simp; omega
      simp [hd, hd2, h1, h2, linesOf, hn, List.replicate_succ]

theorem messageChunk_eq_slice (ms : List message) (i : Nat) :
    messageChunk ms i
      = ((((ms.take (min (i + 3) ms.length)).drop i).map
          (fun m => [m.Message, m.Sender])).flatten) := by
  rw [messageChunk_eq_sources, chunkSources_eq, map_linesOf_range']
  have h0 : min 3 (ms.length - i) - (ms.length - i) = 0 := by omega
  have h1 : (ms.take (min (i + 3) ms.length)).drop i
      = (ms.drop i).take (min 3 (ms.length - i)) := by
    rw [List.drop_take]
    congr 1
    omega
  rw [h0, h1]
  simp

theorem buildObjects_eq (ms : List message) :
    buildObjects ms = (List.range ms.length).map
      (fun k => ({ Class := className
                   Properties := [("message", stringsJoin (messageChunk ms k) "\n")] } :
                 Object)) := by
  unfold buildObjects
  rw [outerLoop_eq, List.range_eq_range']
  simp

theorem mem_chunkSources (ms : List message) (i j : Nat) :
    j ∈ chunkSources ms i ↔ i ≤ j ∧ j < i + 3 ∧ j < ms.length := by
  rw [chunkSources_eq, List.mem_range'_1]
  omega

theorem length_filter_range_interval (a b n : Nat) :
    ((List.range n).filter (fun i => decide (a ≤ i ∧ i ≤ b))).length
      = min n (b + 1) - a := by
  induction n with
  | zero => simp
  | succ n ih =>
    rw [List.range_succ, List.filter_append, List.length_append, ih]
    by_cases hp : a ≤ n ∧ n ≤ b
    · simp [hp]
      omega
    · simp [hp]
      omega

theorem getElem?_buildObjects (ms : List message) (i : Nat) (hi : i < ms.length) :
    (buildObjects ms)[i]?
      = some { Class := className
               Properties := [("message", stringsJoin (messageChunk ms i) "\n")] } := by
  rw [buildObjects_eq]
  simp [hi]

/-- The last chunk of a history that ends with the message hi sent by A is
exactly the two lines hi and A. -/
theorem last_chunk_single_message (init : List message) :
    (buildObjects (init ++ [{ Sender := "A", Message := "hi" }]))[init.length]?
      = some { Class := className, Properties := [("message", "hi\nA")] } := by
  rw [getElem?_buildObjects _ _ (by simp), messageChunk_eq_sources, chunkSources_eq]
  have h : min 3 ((init ++ [({ Sender := "A", Message := "hi" } : message)]).length
      - init.length) = 1 := by simp
  rw [h]
  simp [linesOf, stringsJoin]

/-- In a history of five messages, chunk 3 is made from messages 3 and 4 and
chunk 4 from message 4 alone. -/
theorem fiveMessages_last_chunks :
    chunkSources fiveMessages 3 = [3, 4] ∧ chunkSources fiveMessages 4 = [4]
      ∧ messageChunk fiveMessages 3 = ["m3", "B", "m4", "A"]
      ∧ messageChunk fiveMessages 4 = ["m4", "A"] := by
  refine ⟨?_, ?_, ?_, ?_⟩
  · rw [chunkSources_eq]; rfl
  · rw [chunkSources_eq]; rfl
  · rw [messageChunk_eq_sources, chunkSources_eq]; rfl
  · rw [messageChunk_eq_sources, chunkSources_eq]; rfl

theorem getElem?_lines_range' (ms : List message) (i n d : Nat) (hd : d < n)
    (hn : i + n ≤ ms.length) :
    (((List.range' i n).map (linesOf ms)).flatten)[2 * d]? = ms[i + d]?.map (fun m => m.Message)
      ∧ (((List.range' i n).map (linesOf ms)).flatten)[2 * d + 1]?
        = ms[i + d]?.map (fun m => m.Sender) := by
  induction n generalizing i d with
  | zero => omega
  | succ n ih =>
    have hi : i < ms.length := by omega
    have hl : linesOf ms i = [ms[i].Message, ms[i].Sender] := by simp [linesOf, hi]
    rw [List.range'_succ, List.map_cons, List.flatten_cons, hl]
    cases d with
    | zero => simp [hi]
    | succ d =>
      have h := ih (i + 1) d (by omega) (by omega)
      have e1 : 2 * (d + 1) = (2 * d) + 1 + 1 := by omega
      have e3 : i + (d + 1) = i + 1 + d := by omega
      rw [e1, e3]
      simpa using h

theorem getElem?_messageChunk (ms : List message) (i j : Nat) (hj : j < ms.length)
    (hmem : j ∈ chunkSources ms i) :
    (messageChunk ms i)[2 * (j - i)]? = some ms[j].Message
      ∧ (messageChunk ms i)[2 * (j - i) + 1]? = some ms[j].Sender := by
  have hm := (mem_chunkSources ms i j).1 hmem
  have h := getElem?_lines_range' ms i (min 3 (ms.length - i)) (j - i) (by omega) (by omega)
  have e : i + (j - i) = j := by omega
  rw [e] at h
  rw [messageChunk_eq_sources, chunkSources_eq]
  simpa [hj] using h

/-! ## Lemmas on `Sprintf` -/

theorem push_append_mk (buf : String) (c : Char) (l : List Char) :
    buf.push c ++ String.mk l = buf ++ String.mk (c :: l) := by
  apply String.ext
  simp

theorem doPrintf_literal (lit rest : List Char) (a : List String) (buf : String)
    (hl : '%' ∉ lit) :
    doPrintf (lit ++ rest) a buf = doPrintf rest a (buf ++ String.mk lit) := by
  induction lit generalizing buf with
  | nil =>
    have : buf ++ String.mk [] = buf := by apply String.ext; simp
    simp [this]
  | cons c lit ih =>
    have hc : c ≠ '%' := fun h => hl (by simp [h])
    have hl2 : '%' ∉ lit := fun h => hl (by simp [h])
    rw [List.cons_append]
    rw [doPrintf.eq_def]
    simp only [if_neg hc]
    rw [ih _ hl2, push_append_mk]

theorem doPrintf_string_verb (rest : List Char) (arg : String) (a : List String)
    (buf : String) :
    doPrintf ('%' :: 's' :: rest) (arg :: a) buf = doPrintf rest a (buf ++ arg) := by
  simp [doPrintf]

theorem userPromptFormat_split :
    userPromptFormat.toList
      = userPromptHead.toList ++ ('%' :: 's' :: (userPromptMiddle.toList
          ++ ('%' :: 's' :: (userPromptTail.toList ++ [])))) := by
  decide

theorem Sprintf_userPromptFormat (m r : String) :
    Sprintf userPromptFormat [m, r]
      = some (userPromptHead ++ m ++ userPromptMiddle ++ r ++ userPromptTail) := by
  unfold Sprintf
  rw [userPromptFormat_split, doPrintf_literal _ _ _ _ (by decide), doPrintf_string_verb,
    doPrintf_literal _ _ _ _ (by decide), doPrintf_string_verb,
    doPrintf_literal _ _ _ _ (by decide)]
  have h : ∀ s : String, String.mk s.toList = s := fun _ => rfl
  simp [doPrintf, checkExtra, h]

/-! ## Lemmas on traces -/

theorem mem_trace_andThen {α β : Type} (r : Run α) (k : α → Run β) (e : Event)
    (he : e ∈ (r.andThen k).trace) : e ∈ r.trace ∨ ∃ v, e ∈ (k v).trace := by
  unfold Run.andThen at he
  split at he
  · rcases List.mem_append.1 he with h | h
    · exact Or.inl h
    · exact Or.inr ⟨_, h⟩
  · exact Or.inl he
  · exact Or.inl he
  · exact Or.inl he

theorem reportErrors_no_httpDo (postRes : List ObjectsGetResponse) (e : Event)
    (he : e ∈ (reportErrors postRes).trace) : ∀ req, e ≠ .httpDo req := by
  induction postRes with
  | nil => simp [reportErrors] at he
  | cons r rest ih =>
    unfold reportErrors at he
    split at he
    · simp at he
    · split at he
      · rcases mem_trace_andThen _ _ _ he with h | ⟨_, h⟩
        · intro req hreq
          simp [emit, hreq] at h
        · exact ih h
      · exact ih he

theorem postMessages_no_httpDo (w : World) (ms : List message) (e : Event)
    (he : e ∈ (postMessages w ms).trace) : ∀ req, e ≠ .httpDo req := by
  simp only [postMessages] at he
  split at he
  · intro req hreq
    simp [hreq] at he
  · rcases mem_trace_andThen _ _ _ he with h | ⟨_, h⟩
    · intro req hreq
      simp [emit, hreq] at h
    · exact reportErrors_no_httpDo _ e h

theorem CreateClient_no_httpDo (w : World) (e : Event)
    (he : e ∈ (CreateClient w).trace) : ∀ req, e ≠ .httpDo req := by
  unfold CreateClient at he
  split at he
  · intro req hreq
    simp [hreq] at he
  · split at he <;> simp at he

theorem afterRetrieval_errors (w : World) (response : GraphQLResponse) (errors : List String)
    (he : response.Errors = some errors) :
    afterRetrieval w (.ok response)
      = { trace := errors.map (fun e => Event.printf "Error: %+v \n" e)
          halt := .returned () } := by
  simp [afterRetrieval, he]

theorem reportErrors_of_results (postRes : List ObjectsGetResponse)
    (hr : ∀ r ∈ postRes, r.Result ≠ none) :
    reportErrors postRes
      = { trace := postRes.filterMap
            (fun r => (r.Result.bind (fun res => res.Errors)).map (Event.printf "Error: %+v \n"))
          halt := .returned () } := by
  induction postRes with
  | nil => rfl
  | cons r rest ih =>
    have hrest := ih (fun x hx => hr x (List.mem_cons_of_mem _ hx))
    have hres := hr r (List.mem_cons_self _ _)
    unfold reportErrors
    cases hR : r.Result with
    | none => exact absurd hR hres
    | some result =>
      cases hE : result.Errors with
      | none => simp [hrest, hR, hE]
      | some errors => simp [hrest, hR, hE, Run.andThen, emit]

theorem buildObjects_twoMessages :
    buildObjects twoMessages
      = [{ Class := "Message", Properties := [("message", "yo\nB\nhi\nA")] },
         { Class := "Message", Properties := [("message", "hi\nA")] }] := by
  rw [buildObjects_eq]
  simp only [messageChunk_eq_sources, chunkSources_eq]
  rfl

theorem main_no_httpDo_of_errors (w : World) (response : GraphQLResponse)
    (errors : List String) (hq : w.graphqlDo retrievalQuery = .ok response)
    (he : response.Errors = some errors) (e : Event) (hmem : e ∈ (main w).trace) :
    ∀ req, e ≠ .httpDo req := by
  intro req hreq
  subst hreq
  unfold main at hmem
  split at hmem
  · simp at hmem
  · rcases mem_trace_andThen _ _ _ hmem with h | ⟨_, h⟩
    · exact CreateClient_no_httpDo w _ h req rfl
    · split at h
      · simp at h
      · split at h
        · simp at h
        · rcases mem_trace_andThen _ _ _ h with h | ⟨_, h⟩
          · exact postMessages_no_httpDo w _ _ h req rfl
          · rcases mem_trace_andThen _ _ _ h with h | ⟨_, h⟩
            · simp [emit] at h
            · rcases mem_trace_andThen _ _ _ h with h | ⟨_, h⟩
              · simp [emit] at h
              · rw [hq, afterRetrieval_errors w response errors he] at h
                simp at h

theorem requestCompletion_calmWorld (m r : String) :
    (requestCompletion calmWorld m r).halt = .returned helloResponse := by
  simp [requestCompletion, generateAnswerPayload, Sprintf_userPromptFormat, calmWorld]

theorem requestCompletion_noChoiceWorld (m r : String) :
    (requestCompletion noChoiceWorld m r).halt = .returned noChoiceResponse := by
  simp [requestCompletion, generateAnswerPayload, Sprintf_userPromptFormat, noChoiceWorld,
    calmWorld]

theorem requestCompletion_trace_calmWorld (m r : String) :
    (requestCompletion calmWorld m r).trace
      = [.httpDo { Method := "POST", URL := "https://api.groq.com/openai/v1/chat/completions"
                   Body := "{}"
                   Header := [("Authorization", "Bearer key"),
                              ("Content-Type", "application/json")] }] := by
  simp [requestCompletion, generateAnswerPayload, Sprintf_userPromptFormat, calmWorld]

/-! ## The claims on `postMessages` -/

/-- C1: for every message list and every index `i` below its length, the
`i`-th object built by `postMessages` has class `className` and the single
property `message`, whose value is the text of the slice
`ms[i .. min(i+3, L))`: for each message its `Message` and then its `Sender`,
joined by one newline. -/
theorem postMessages_chunk_text (ms : List message) (i : Nat) (hi : i < ms.length) :
    (buildObjects ms)[i]?
        = some { Class := className, Properties := [("message", chunkText ms i)] }
      ∧ ((buildObjects ms)[i]?).bind (fun o => o.property "message")
        = some (chunkText ms i) := by
  have h : (buildObjects ms)[i]?
      = some { Class := className, Properties := [("message", chunkText ms i)] } := by
    rw [getElem?_buildObjects ms i hi, stringsJoin_eq_intercalate, messageChunk_eq_slice]
    rfl
  refine ⟨h, ?_⟩
  rw [h]
  simp [Object.property, List.lookup]

/-- C1 at the history `twoMessages`, index 1: the last chunk is the text of
the message hi followed by its sender A. -/
theorem postMessages_chunk_text_witness :
    1 < twoMessages.length
      ∧ (buildObjects twoMessages)[1]?
        = some { Class := "Message", Properties := [("message", "hi\nA")] } :=
  ⟨by decide, (postMessages_chunk_text twoMessages 1 (by decide)).1⟩

/-- C2: for every message list of length `L` (in particular every non-empty
one) the windowing loop builds exactly `L` objects, the `k`-th of them from
the chunk that starts at index `k`, and these objects are what `postMessages`
hands to the batch insert. -/
theorem postMessages_one_object_per_index (ms : List message) :
    (buildObjects ms).length = ms.length
      ∧ buildObjects ms = (List.range ms.length).map
          (fun k => ({ Class := className, Properties := [("message", chunkText ms k)] } :
            Object))
      ∧ ∀ w : World, (postMessages w ms).trace.head? = some (.batchObjects (buildObjects ms)) := by
  have h : buildObjects ms = (List.range ms.length).map
      (fun k => ({ Class := className, Properties := [("message", chunkText ms k)] } :
        Object)) := by
    rw [buildObjects_eq]
    apply List.map_congr_left
    intro k _
    rw [stringsJoin_eq_intercalate, messageChunk_eq_slice]
    rfl
  refine ⟨?_, h, ?_⟩
  · rw [h]; simp
  · intro w
    simp only [postMessages]
    split <;> simp [Run.andThen, emit]

/-- C3: for every message list of length `L` and every `i < L`, the inner
loop of `postMessages` runs at exactly the indices `i, i+1, ...`, `min(3, L-i)`
of them in increasing order, every one of them inside the list, and
`messageChunk`, from which the `i`-th object is built, is the lines of exactly
these messages in that order. -/
theorem postMessages_chunk_sources (ms : List message) (i : Nat) (hi : i < ms.length) :
    (buildObjects ms)[i]?
        = some { Class := className
                 Properties := [("message", stringsJoin (messageChunk ms i) "\n")] }
      ∧ chunkSources ms i = List.range' i (min 3 (ms.length - i))
      ∧ (chunkSources ms i).length = min 3 (ms.length - i)
      ∧ (∀ k ∈ chunkSources ms i, ∃ m, ms[k]? = some m ∧ linesOf ms k = [m.Message, m.Sender])
      ∧ messageChunk ms i = ((chunkSources ms i).map (linesOf ms)).flatten
      ∧ (messageChunk ms i).length = 2 * min 3 (ms.length - i) := by
  have hk : ∀ k ∈ chunkSources ms i,
      ∃ m, ms[k]? = some m ∧ linesOf ms k = [m.Message, m.Sender] := by
    intro k hk
    have hlt : k < ms.length := ((mem_chunkSources ms i k).1 hk).2.2
    exact ⟨ms[k], by simp [hlt], by simp [linesOf, hlt]⟩
  refine ⟨getElem?_buildObjects ms i hi, chunkSources_eq ms i, ?_, hk,
    messageChunk_eq_sources ms i, ?_⟩
  · rw [chunkSources_eq]; simp
  · rw [messageChunk_eq_sources, List.length_flatten, List.map_map]
    have hc : ∀ k ∈ chunkSources ms i, (List.length ∘ linesOf ms) k = 2 := by
      intro k hk'
      obtain ⟨m, _, hm⟩ := hk k hk'
      simp [hm]
    rw [List.map_congr_left hc, chunkSources_eq]
    simp [Nat.mul_comm]

/-- C3 at a history of five messages: chunk 3 is made from messages 3 and 4. -/
theorem postMessages_chunk_sources_witness :
    3 < fiveMessages.length
      ∧ chunkSources fiveMessages 3 = List.range' 3 (min 3 (fiveMessages.length - 3)) :=
  ⟨by decide, (postMessages_chunk_sources fiveMessages 3 (by decide)).2.1⟩

/-- C8: whenever chunk `i` is made from three messages (`i + 3 ≤ L`), its
sources are `i, i+1, i+2`, the last two of them are the first two sources of
chunk `i+1`, the sources the two chunks have in common are exactly `i+1` and
`i+2`, and the last four lines of chunk `i` are the first four of chunk `i+1`.
On the objects built: objects `i` and `i+1` of `postMessages` carry the joined
`messageChunk` of `i` and of `i+1`; the first is the six lines of messages
`i, i+1, i+2`, and the second starts with the four lines of messages `i+1`
and `i+2`. -/
theorem postMessages_chunks_overlap (ms : List message) (i : Nat) (hi : i + 3 ≤ ms.length) :
    chunkSources ms i = [i, i + 1, i + 2]
      ∧ (chunkSources ms i).drop 1 = (chunkSources ms (i + 1)).take 2
      ∧ (chunkSources ms i).filter (fun k => decide (k ∈ chunkSources ms (i + 1)))
          = [i + 1, i + 2]
      ∧ (messageChunk ms i).drop 2 = (messageChunk ms (i + 1)).take 4
      ∧ (buildObjects ms)[i]?
          = some { Class := className
                   Properties := [("message", stringsJoin (messageChunk ms i) "\n")] }
      ∧ (buildObjects ms)[i + 1]?
          = some { Class := className
                   Properties := [("message", stringsJoin (messageChunk ms (i + 1)) "\n")] }
      ∧ messageChunk ms i = ((chunkSources ms i).map (linesOf ms)).flatten
      ∧ messageChunk ms (i + 1) = ((chunkSources ms (i + 1)).map (linesOf ms)).flatten
      ∧ messageChunk ms i
          = [ms[i].Message, ms[i].Sender, ms[i + 1].Message, ms[i + 1].Sender,
             ms[i + 2].Message, ms[i + 2].Sender]
      ∧ (messageChunk ms (i + 1)).take 4
          = [ms[i + 1].Message, ms[i + 1].Sender, ms[i + 2].Message, ms[i + 2].Sender] := by
  have h3 : min 3 (ms.length - i) = 3 := by omega
  have hs : chunkSources ms i = [i, i + 1, i + 2] := by
    rw [chunkSources_eq, h3]; rfl
  have hn : chunkSources ms (i + 1) = [i + 1, i + 2] ∨
      chunkSources ms (i + 1) = [i + 1, i + 2, i + 3] := by
    rw [chunkSources_eq]
    by_cases h : i + 4 ≤ ms.length
    · right
      have : min 3 (ms.length - (i + 1)) = 3 := by omega
      rw [this]; rfl
    · left
      have : min 3 (ms.length - (i + 1)) = 2 := by omega
      rw [this]; rfl
  have h0 : i < ms.length := by omega
  have h1 : i + 1 < ms.length := by omega
  have h2 : i + 2 < ms.length := by omega
  refine ⟨hs, ?_, ?_, ?_, getElem?_buildObjects ms i h0, getElem?_buildObjects ms (i + 1) h1,
    messageChunk_eq_sources ms i, messageChunk_eq_sources ms (i + 1), ?_, ?_⟩
  · rcases hn with hn | hn <;> rw [hs, hn] <;> rfl
  · rcases hn with hn | hn <;> rw [hs, hn] <;> simp [List.filter]
  · rw [messageChunk_eq_sources, messageChunk_eq_sources, hs]
    rcases hn with hn | hn
    · rw [hn]; simp [linesOf, h0, h1, h2]
    · have h3 : i + 3 < ms.length := by
        have : i + 3 ∈ chunkSources ms (i + 1) := by rw [hn]; simp
        exact ((mem_chunkSources ms (i + 1) (i + 3)).1 this).2.2
      rw [hn]; simp [linesOf, h0, h1, h2, h3]
  · rw [messageChunk_eq_sources, hs]
    simp [linesOf, h0, h1, h2]
  · rw [messageChunk_eq_sources]
    rcases hn with hn | hn
    · rw [hn]; simp [linesOf, h1, h2]
    · have h3 : i + 3 < ms.length := by
        have : i + 3 ∈ chunkSources ms (i + 1) := by rw [hn]; simp
        exact ((mem_chunkSources ms (i + 1) (i + 3)).1 this).2.2
      rw [hn]; simp [linesOf, h1, h2, h3]

/-- C8 at a history of five messages, chunks 0 and 1: object 0 is built from
the six lines of messages 0, 1 and 2, chunk 1 starts with the four lines of
messages 1 and 2, and the common sources are 1 and 2. -/
theorem postMessages_chunks_overlap_witness :
    0 + 3 ≤ fiveMessages.length
      ∧ (chunkSources fiveMessages 0).filter
          (fun k => decide (k ∈ chunkSources fiveMessages (0 + 1))) = [0 + 1, 0 + 2]
      ∧ (buildObjects fiveMessages)[0]?
          = some { Class := className
                   Properties := [("message", stringsJoin (messageChunk fiveMessages 0) "\n")] }
      ∧ messageChunk fiveMessages 0 = ["m0", "A", "m1", "B", "m2", "A"]
      ∧ (messageChunk fiveMessages (0 + 1)).take 4 = ["m1", "B", "m2", "A"] :=
  ⟨by decide,
   (postMessages_chunks_overlap fiveMessages 0 (by decide)).2.2.1,
   (postMessages_chunks_overlap fiveMessages 0 (by decide)).2.2.2.2.1,
   (postMessages_chunks_overlap fiveMessages 0 (by decide)).2.2.2.2.2.2.2.2.1,
   (postMessages_chunks_overlap fiveMessages 0 (by decide)).2.2.2.2.2.2.2.2.2⟩

/-- C10: for every message list of length `L` and every `j < L`, message `j`
is a source of chunk `i` exactly when `max(0, j-2) ≤ i ≤ j`; it is a source
of exactly `min(3, j+1)` of the `L` chunks, and of at least one. On the
objects built: `postMessages` builds one object per index below `L` from the
joined `messageChunk` of that index, every `messageChunk` is the lines of
exactly its sources, and in every chunk `i` that has `j` as a source the
`Message` and `Sender` of message `j` stand at positions `2(j-i)` and
`2(j-i)+1`; in particular chunk `j` starts with them. -/
theorem postMessages_drops_no_message (ms : List message) (j : Nat) (hj : j < ms.length) :
    (∀ i : Nat, j ∈ chunkSources ms i ↔ (max 0 ((j : Int) - 2) ≤ (i : Int) ∧ i ≤ j))
      ∧ ((List.range ms.length).filter
          (fun i => decide (j ∈ chunkSources ms i))).length = min 3 (j + 1)
      ∧ (∃ i, i < ms.length ∧ j ∈ chunkSources ms i)
      ∧ buildObjects ms = (List.range ms.length).map
          (fun i => ({ Class := className
                       Properties := [("message", stringsJoin (messageChunk ms i) "\n")] } :
                     Object))
      ∧ (∀ i : Nat, messageChunk ms i = ((chunkSources ms i).map (linesOf ms)).flatten)
      ∧ (∀ i : Nat, (max 0 ((j : Int) - 2) ≤ (i : Int) ∧ i ≤ j) →
          (messageChunk ms i)[2 * (j - i)]? = some ms[j].Message
            ∧ (messageChunk ms i)[2 * (j - i) + 1]? = some ms[j].Sender)
      ∧ (messageChunk ms j).take 2 = [ms[j].Message, ms[j].Sender]
      ∧ (buildObjects ms)[j]?
          = some { Class := className
                   Properties := [("message", stringsJoin (messageChunk ms j) "\n")] } := by
  have hiff : ∀ i : Nat,
      j ∈ chunkSources ms i ↔ (max 0 ((j : Int) - 2) ≤ (i : Int) ∧ i ≤ j) := by
    intro i
    rw [mem_chunkSources]
    omega
  have hjj : j ∈ chunkSources ms j := by rw [mem_chunkSources]; omega
  refine ⟨hiff, ?_, ⟨j, hj, hjj⟩, buildObjects_eq ms, fun i => messageChunk_eq_sources ms i,
    ?_, ?_, getElem?_buildObjects ms j hj⟩
  · have hc : (List.range ms.length).filter (fun i => decide (j ∈ chunkSources ms i))
        = (List.range ms.length).filter (fun i => decide (j - 2 ≤ i ∧ i ≤ j)) := by
      apply List.filter_congr
      intro i _
      have : (j ∈ chunkSources ms i) ↔ (j - 2 ≤ i ∧ i ≤ j) := by
        rw [mem_chunkSources]; omega
      simp [this]
    rw [hc, length_filter_range_interval]
    omega
  · intro i hi
    exact getElem?_messageChunk ms i j hj ((hiff i).2 hi)
  · have h := getElem?_messageChunk ms j j hj hjj
    simp only [Nat.sub_self, Nat.mul_zero, Nat.zero_add] at h
    obtain ⟨ha, hb⟩ := h
    generalize messageChunk ms j = l at ha hb
    match l, ha, hb with
    | a :: b :: rest, ha, hb =>
      simp at ha hb
      simp [ha, hb]

/-- C10 at a history of five messages, message 4: it is a source of three of
the five chunks, and in chunk 2 its two lines stand at positions 4 and 5. -/
theorem postMessages_drops_no_message_witness :
    4 < fiveMessages.length
      ∧ ((List.range fiveMessages.length).filter
          (fun i => decide (4 ∈ chunkSources fiveMessages i))).length = min 3 (4 + 1)
      ∧ ((messageChunk fiveMessages 2)[2 * (4 - 2)]? = some "m4"
          ∧ (messageChunk fiveMessages 2)[2 * (4 - 2) + 1]? = some "A")
      ∧ (messageChunk fiveMessages 4).take 2 = ["m4", "A"] :=
  ⟨by decide,
   (postMessages_drops_no_message fiveMessages 4 (by decide)).2.1,
   (postMessages_drops_no_message fiveMessages 4 (by decide)).2.2.2.2.2.1 2 (by decide),
   (postMessages_drops_no_message fiveMessages 4 (by decide)).2.2.2.2.2.2.1⟩

/-! ## The claims on `main` and the batch insert -/

/-- C4, as the code has it: when the retrieval response arrives without a
top-level error and `response.Errors` is set, every error is printed and
`main` returns at once, so `generateAnswer` is not invoked and no completion
request is sent anywhere in the run; when `response.Errors` is nil, the
results are printed and `generateAnswer` is invoked with the incoming message
and the serialized response, its answer being printed last. -/
theorem main_field_errors_end_run (w : World) (response : GraphQLResponse) :
    (∀ errors, response.Errors = some errors →
        afterRetrieval w (.ok response)
          = { trace := errors.map (fun e => Event.printf "Error: %+v \n" e)
              halt := .returned () })
      ∧ (∀ errors, response.Errors = some errors →
          w.graphqlDo retrievalQuery = .ok response →
          ∀ e ∈ (main w).trace, ∀ req, e ≠ .httpDo req)
      ∧ (response.Errors = none →
          afterRetrieval w (.ok response)
            = (emit (.print "RAG Results: \n")).andThen fun _ =>
              ({ trace := response.Data.map (fun kv => Event.printf "Message: %s \n" kv.2)
                 halt := .returned () } : Run Unit).andThen fun _ =>
              (emit (.print "End Rag Results\n")).andThen fun _ =>
              (generateAnswer w incomingMessage (w.sprintfPlusV response)).andThen fun answer =>
              emit (.println answer)) := by
  refine ⟨fun errors he => afterRetrieval_errors w response errors he, ?_, ?_⟩
  · intro errors he hq e hmem
    exact main_no_httpDo_of_errors w response errors hq he e hmem
  · intro he
    simp [afterRetrieval, he]

/-- C4, as the code has it, in the world whose retrieval carries one
field-level error. -/
theorem main_field_errors_end_run_witness :
    afterRetrieval fieldErrorWorld
        (.ok { Data := [], Errors := some ["no such class"] })
      = { trace := [Event.printf "Error: %+v \n" "no such class"], halt := .returned () } :=
  (main_field_errors_end_run fieldErrorWorld
    { Data := [], Errors := some ["no such class"] }).1 ["no such class"] rfl

/-- C4 fails as stated: in `fieldErrorWorld` retrieval arrives without a
top-level error and with one field-level error; `generateAnswer`, if it were
invoked there, would send a completion request, but the run of `main` prints
the error and returns without any such request and without printing an
answer. -/
theorem main_field_errors_skip_generation :
    fieldErrorWorld.graphqlDo retrievalQuery
        = .ok { Data := [], Errors := some ["no such class"] }
      ∧ (generateAnswer fieldErrorWorld incomingMessage
          (fieldErrorWorld.sprintfPlusV { Data := [], Errors := some ["no such class"] })).trace
        = [.httpDo { Method := "POST"
                     URL := "https://api.groq.com/openai/v1/chat/completions"
                     Body := "{}"
                     Header := [("Authorization", "Bearer key"),
                                ("Content-Type", "application/json")] }]
      ∧ main fieldErrorWorld
        = { trace :=
              [ .batchObjects
                  [{ Class := "Message", Properties := [("message", "yo\nB\nhi\nA")] },
                   { Class := "Message", Properties := [("message", "hi\nA")] }],
                .printf "\nIncoming message: %q \n\n" incomingMessage,
                .graphqlGet retrievalQuery,
                .printf "Error: %+v \n" "no such class" ]
            halt := .returned () } := by
  refine ⟨rfl, ?_, ?_⟩
  · have h := requestCompletion_trace_calmWorld incomingMessage
      "&\x7bData:map[Get:map[Message:[]]] Errors:[]\x7d"
    have h2 := requestCompletion_calmWorld incomingMessage
      "&\x7bData:map[Get:map[Message:[]]] Errors:[]\x7d"
    have hw : requestCompletion fieldErrorWorld incomingMessage
        "&\x7bData:map[Get:map[Message:[]]] Errors:[]\x7d"
        = requestCompletion calmWorld incomingMessage
          "&\x7bData:map[Get:map[Message:[]]] Errors:[]\x7d" := rfl
    show (generateAnswer fieldErrorWorld incomingMessage
      "&\x7bData:map[Get:map[Message:[]]] Errors:[]\x7d").trace = _
    simp only [generateAnswer, Run.andThen, hw, h2]
    simp [h]
  · simp [main, fieldErrorWorld, calmWorld, CreateClient, postMessages, Run.andThen, emit,
      reportErrors, afterRetrieval, buildObjects_twoMessages]

/-- C5, as the code has it: a batch-level error makes `postMessages` panic
with that error right after the insert; without a batch-level error, and with
every response carrying its result record, `postMessages` prints each
per-object error in order and returns normally. -/
theorem postMessages_batch_outcome (w : World) (ms : List message) :
    (∀ err, w.batchDo (buildObjects ms) = .error err →
        postMessages w ms
          = { trace := [.batchObjects (buildObjects ms)], halt := .panicked (.error err) })
      ∧ (∀ postRes, w.batchDo (buildObjects ms) = .ok postRes →
          (∀ r ∈ postRes, r.Result ≠ none) →
          postMessages w ms
            = { trace := .batchObjects (buildObjects ms) :: postRes.filterMap
                  (fun r => (r.Result.bind (fun res => res.Errors)).map
                    (Event.printf "Error: %+v \n"))
                halt := .returned () }) := by
  constructor
  · intro err hb
    simp [postMessages, hb]
  · intro postRes hb hr
    simp [postMessages, hb, reportErrors_of_results postRes hr, Run.andThen, emit]

/-- C5, as the code has it, in the world whose batch insert rejects the
second object: the rejection is printed and `postMessages` returns. -/
theorem postMessages_batch_outcome_witness :
    postMessages objectErrorWorld twoMessages
      = { trace := [.batchObjects (buildObjects twoMessages),
                    .printf "Error: %+v \n" "invalid object"]
          halt := .returned () } :=
  (postMessages_batch_outcome objectErrorWorld twoMessages).2
    [{ Result := some { Errors := none } },
     { Result := some { Errors := some "invalid object" } }] rfl (by decide)

/-- C5 fails as stated: in `batchErrorWorld` the batch insert fails as a
whole, and `postMessages` does not return but panics with that error, which
also ends `main`. -/
theorem postMessages_batch_error_panics :
    batchErrorWorld.batchDo (buildObjects twoMessages) = .error "connection refused"
      ∧ (postMessages batchErrorWorld twoMessages).halt
        = .panicked (.error "connection refused")
      ∧ (postMessages batchErrorWorld twoMessages).halt ≠ .returned ()
      ∧ (main batchErrorWorld).halt = .panicked (.error "connection refused") := by
  refine ⟨rfl, ?_, ?_, ?_⟩
  · simp [postMessages, batchErrorWorld]
  · simp [postMessages, batchErrorWorld]
  · simp [main, batchErrorWorld, calmWorld, CreateClient, postMessages, Run.andThen]

/-! ## The claims on `generateAnswer` -/

/-- C6: whenever the request part of `generateAnswer` returns a decoded
response whose choices start with `c`, `generateAnswer` returns exactly
`c.Message.Content`, whatever the other choices and fields hold. -/
theorem generateAnswer_first_choice (w : World) (m r : String) (resp : GroqResponse)
    (c : Choice) (cs : List Choice)
    (hd : (requestCompletion w m r).halt = .returned resp) (hc : resp.Choices = c :: cs) :
    (generateAnswer w m r).halt = .returned c.Message.Content := by
  simp [generateAnswer, Run.andThen, hd, firstChoiceContent, hc]

/-- C6 in the calm world: the one choice has the content hello, and that is
what `generateAnswer` returns. -/
theorem generateAnswer_first_choice_witness :
    (generateAnswer calmWorld "q" "ctx").halt = .returned "hello" :=
  generateAnswer_first_choice calmWorld "q" "ctx" helloResponse
    { Index := 0, Message := { Role := "assistant", Content := "hello" }
      Logprobs := none, FinishReason := "stop" } []
    (requestCompletion_calmWorld "q" "ctx") rfl

/-- C7: whenever the request part of `generateAnswer` returns a decoded
response with an empty choices list, `generateAnswer` stops with the run-time
panic for index 0 out of range of length 0, and returns no string at all. -/
theorem generateAnswer_no_choice (w : World) (m r : String) (resp : GroqResponse)
    (hd : (requestCompletion w m r).halt = .returned resp) (hc : resp.Choices = []) :
    (generateAnswer w m r).halt = .panicked (.indexOutOfRange 0 0)
      ∧ ∀ s : String, (generateAnswer w m r).halt ≠ .returned s := by
  have h : (generateAnswer w m r).halt = .panicked (.indexOutOfRange 0 0) := by
    simp [generateAnswer, Run.andThen, hd, firstChoiceContent, hc]
  refine ⟨h, ?_⟩
  intro s hs
  rw [h] at hs
  cases hs

/-- C7 in the world whose completion endpoint returns no choice. -/
theorem generateAnswer_no_choice_witness :
    (generateAnswer noChoiceWorld "q" "ctx").halt = .panicked (.indexOutOfRange 0 0) :=
  (generateAnswer_no_choice noChoiceWorld "q" "ctx" noChoiceResponse
    (requestCompletion_noChoiceWorld "q" "ctx") rfl).1

/-- C9: for every incoming message `m` and retrieved context `r`, the payload
of `generateAnswer` has exactly two entries under `messages`: first the role
`system` with the constant `systemPrompt`, then the role `user` with
`userPromptHead ++ m ++ userPromptMiddle ++ r ++ userPromptTail`, so `m` and
`r` stand in it unchanged, `m` first; the three parts are the format string
cut at its two verbs. -/
theorem generateAnswer_payload (m r : String) :
    generateAnswerPayload m r
        = some
            { messages :=
                [ [("role", "system"), ("content", systemPrompt)],
                  [("role", "user"),
                   ("content", userPromptHead ++ m ++ userPromptMiddle ++ r
                      ++ userPromptTail)] ]
              model := "llama-3.1-70b-versatile" }
      ∧ userPromptFormat
        = userPromptHead ++ "%s" ++ userPromptMiddle ++ "%s" ++ userPromptTail := by
  constructor
  · simp [generateAnswerPayload, Sprintf_userPromptFormat]
  · decide

end Weaviate2024
